import Mathlib

/-
Verification of the wasm-bindgen backend code generator
(crates/backend/src/codegen.rs) against its natural-language
specification. The file shallowly embeds the generator: the AST types it
consumes, the token output it produces (modelled as structured items),
the process-wide descriptor registry, the metadata blob construction and
the runtime semantics of the pieces of generated code that the claims
talk about.
-/

namespace WasmBindgen

/-- Rust surface types at the granularity the generator inspects. The
argument and return lowering in codegen.rs only distinguishes reference
types (with mutability and referent) from every other type; descriptor
logic additionally mentions the unit type and JsValue. Every other type
is kept abstract under a name. -/
inductive RustType
  | unit
  | jsValue
  | named (s : String)
  | ref (mutable : Bool) (elem : RustType)
deriving DecidableEq

/-- Descriptor tag vocabulary used by generated describe bodies. The
numeric u32 values of these codes live in the describe module of the
wasm-bindgen crate, outside src/, so tags stay symbolic here. -/
inductive Tag
  | FUNCTION
  | LONGREF
  | RUST_STRUCT
  | NAMED_EXTERNREF
  | ENUM
  | VECTOR
deriving DecidableEq

/-- One u32 pushed by an inform call in a descriptor body: a symbolic tag
code or a plain number (counts, name lengths, character codes). -/
inductive DescItem
  | tag (t : Tag)
  | val (n : Nat)
deriving DecidableEq

/-- UTF-8 encoding of one character. Rust String length and as_bytes are
UTF-8 byte based, so the model needs a byte-level view of strings. -/
def utf8Bytes (c : Char) : List Nat :=
  let n := c.toNat
  if n < 128 then [n]
  else if n < 2048 then [192 + n / 64, 128 + n % 64]
  else if n < 65536 then [224 + n / 4096, 128 + n / 64 % 64, 128 + n % 64]
  else [240 + n / 262144, 128 + n / 4096 % 64, 128 + n / 64 % 64, 128 + n % 64]

/-- UTF-8 bytes of a string, matching Rust String::as_bytes; its length
matches Rust String::len. -/
def strBytes (s : String) : List Nat :=
  (s.data.map utf8Bytes).flatten

/-- Tag stream emitted by the WasmDescribe impl generated for an exported
struct (codegen.rs lines 166-188): RUST_STRUCT, then the byte length of
the JS-visible name, then one code point per character. -/
def structDescribe (jsName : String) : List DescItem :=
  DescItem.tag Tag.RUST_STRUCT :: DescItem.val (strBytes jsName).length ::
    jsName.data.map (fun c => DescItem.val c.toNat)

/-- Diagnostics produced during lowering. The Diagnostic type itself is
declared outside src/; the claims only depend on span errors carrying a
message and on the aggregation of a collected error list. -/
inductive Diagnostic
  | spanError (msg : String)
  | aggregate (ds : List Diagnostic)

/-- Modelled from the spec: Diagnostic::from_vec is outside src/ (the
error module of the backend crate). Section 7 of the spec says collected
structural errors are reported together in one aggregated Diagnostic and
an empty collection is success. -/
def fromVec (errors : List Diagnostic) : Except Diagnostic Unit :=
  if errors.isEmpty then Except.ok () else Except.error (Diagnostic.aggregate errors)

/-- One primitive parameter produced by splat: its identifier, the ABI
type token it projects from, and which primitive component (Prim1 to
Prim4) of that ABI type it is typed as. -/
structure SplatArg (A : Type) where
  argName : String
  abi : A
  primIndex : Nat
deriving DecidableEq

/-- The loop bounds of splat (codegen.rs line 1579): n runs over 1..=4. -/
def splatNs : List Nat := [1, 2, 3, 4]

/-- Transcription of splat (codegen.rs lines 1571-1589): for n in 1..=4
push one argument named name_n typed as the Prim n component of the ABI
type, and record the same identifier in the names list. -/
def splat {A : Type} (abi : A) (name : String) : List (SplatArg A) × List String :=
  splatNs.foldl
    (fun acc n =>
      let argName := name ++ "_" ++ toString n
      (acc.1 ++ [{ argName := argName, abi := abi, primIndex := n }], acc.2 ++ [argName]))
    ([], [])

/-- Receiver modes of an exported method (ast::MethodSelf). -/
inductive MethodSelf
  | byValue
  | refMutable
  | refShared
deriving DecidableEq

/-- The parts of ast::Function that the generator reads: argument types
in declaration order, the optional declared return type, and the async
flag. -/
structure FunctionSig where
  arguments : List RustType
  ret : Option RustType
  isAsync : Bool
deriving DecidableEq

/-- The parts of ast::Export read by TryToTokens (codegen.rs 464-739). -/
structure Export where
  exportName : String
  function : FunctionSig
  start : Bool
  methodSelf : Option MethodSelf
deriving DecidableEq

/-- Argument patterns of an imported function at the granularity of the
match in codegen.rs lines 1150-1162: a plain binder, a wildcard, or any
other pattern (which is rejected). -/
inductive Pat
  | identPat (name : String)
  | wild
  | other
deriving DecidableEq

/-- The parts of ast::ImportFunction read by the generator. -/
structure ImportFunction where
  shim : String
  arguments : List (Pat × RustType)
  jsRet : Option RustType
  isAsync : Bool
  catches : Bool
deriving DecidableEq

structure ImportStatic where
  shim : String
  ty : RustType
deriving DecidableEq

structure ImportType where
  rustName : String
deriving DecidableEq

/-- An imported (host-defined) enum: variant names and the host string
value of each variant, in declaration order. -/
structure ImportEnum where
  name : String
  variants : List String
  variantValues : List String
deriving DecidableEq

inductive ImportKind
  | function (f : ImportFunction)
  | staticKind (s : ImportStatic)
  | typeKind (t : ImportType)
  | enumKind (e : ImportEnum)
deriving DecidableEq

structure Import where
  jsNamespace : Option (List String)
  kind : ImportKind
deriving DecidableEq

structure StructField where
  rustName : String
  getter : String
  setter : String
  readonly : Bool
  ty : RustType
deriving DecidableEq

structure Struct where
  rustName : String
  jsName : String
  fields : List StructField
deriving DecidableEq

/-- An exported enum: variant names with their numeric discriminants,
plus the hole value used for the optional encoding. -/
structure Enum where
  rustName : String
  variants : List (String × Nat)
  hole : Nat
deriving DecidableEq

structure Program where
  exports : List Export
  structs : List Struct
  imports : List Import
  enums : List Enum
deriving DecidableEq

/-- Which conversion path an exported-function argument is lowered
through, following the match in codegen.rs lines 527-591. -/
inductive ArgLowering
  | refMut
  | longRef
  | refShared
  | byValue
deriving DecidableEq

/-- Argument lowering selected by the match on the argument type in the
Export argument loop (codegen.rs 527-591): a mutable reference always
uses RefMutFromWasmAbi, a shared reference uses LongRefFromWasmAbi for
async functions and RefFromWasmAbi otherwise, and everything else uses
FromWasmAbi. -/
def argLowering (isAsync : Bool) (ty : RustType) : ArgLowering :=
  match ty with
  | RustType.ref true _ => ArgLowering.refMut
  | RustType.ref false _ => if isAsync then ArgLowering.longRef else ArgLowering.refShared
  | _ => ArgLowering.byValue

structure ArgConv where
  ident : String
  lowering : ArgLowering
deriving DecidableEq

structure ExportShim where
  hasReceiverSlot : Bool
  argConvs : List ArgConv
deriving DecidableEq

/-- The output of lowering one export: the generated shim and the
descriptor request the export registers (ident plus tag stream the
descriptor body emits when executed). -/
structure ExportOutput where
  shim : ExportShim
  descriptorIdent : String
  descriptorStream : List DescItem
deriving DecidableEq

/-- Per-argument descriptor fragment (codegen.rs 691-705): a shared
reference argument of an async export is described as LONGREF followed by
the referent description; every other argument is described by the
WasmDescribe impl of its own declared type. -/
def describeArgStream (describeTy : RustType → List DescItem) (isAsync : Bool)
    (ty : RustType) : List DescItem :=
  match ty with
  | RustType.ref false elem =>
      if isAsync then DescItem.tag Tag.LONGREF :: describeTy elem
      else describeTy (RustType.ref false elem)
  | t => describeTy t

/-- Outer return type of an export (codegen.rs 606-632): unit for start
functions, JsValue for async non-start functions, the declared return
type (or unit) otherwise. -/
def exportRetTy (e : Export) : RustType :=
  let synRet := e.function.ret.getD RustType.unit
  if e.function.isAsync then
    (if e.start then RustType.unit else RustType.jsValue)
  else if e.start then RustType.unit
  else synRet

/-- Inner return type of an export (codegen.rs 606-632): the payload of
the async envelope; equal to the outer type for sync non-start
functions. -/
def exportInnerRetTy (e : Export) : RustType :=
  let synRet := e.function.ret.getD RustType.unit
  if e.function.isAsync then
    (if e.start then RustType.unit else synRet)
  else if e.start then RustType.unit
  else synRet

/-- Inputs of the generator that come from outside src/. Modelled from
the spec: describeTy stands for the WasmDescribe impls of arbitrary types
(only the struct impl is generated inside src/, see structDescribe);
fitsOnImpl is ast::ImportKind::fits_on_impl from the ast module;
schemaVersion and toolVersion are the shared crate constants; and
encodeResult is the outcome of encode::encode, the binary declaration
list encoding which the spec treats as a black box. -/
structure Config where
  describeTy : RustType → List DescItem
  fitsOnImpl : ImportKind → Bool
  schemaVersion : String
  toolVersion : String
  encodeResult : Except Diagnostic (List Nat)

/-- The argument conversion list built by the Export argument loop
(codegen.rs 521-593): argument i is bound to identifier arg(i + offset)
and converted per argLowering. -/
def exportArgConvs (isAsync : Bool) : Nat → List RustType → List ArgConv
  | _, [] => []
  | i, ty :: rest =>
      ({ ident := "arg" ++ toString i, lowering := argLowering isAsync ty } : ArgConv) ::
        exportArgConvs isAsync (i + 1) rest

/-- Transcription of TryToTokens for ast::Export (codegen.rs 464-739).
The argument loop cannot fail; afterwards a declared reference return
type is rejected with a span error before anything is added to the
output, and otherwise the shim plus the descriptor (FUNCTION, a zero
receiver marker, the argument count, the per-argument descriptions, then
the describe calls for the outer and the inner return type) are
produced. -/
def exportToTokens (cfg : Config) (e : Export) : Except Diagnostic ExportOutput :=
  match e.function.ret.getD RustType.unit with
  | RustType.ref _ _ =>
      Except.error (Diagnostic.spanError "cannot return a borrowed ref with #[wasm_bindgen]")
  | _ =>
      Except.ok
        { shim := { hasReceiverSlot := e.methodSelf.isSome,
                    argConvs := exportArgConvs e.function.isAsync
                      (if e.methodSelf.isSome then 1 else 0) e.function.arguments },
          descriptorIdent := e.exportName,
          descriptorStream :=
            DescItem.tag Tag.FUNCTION :: DescItem.val 0 ::
              DescItem.val e.function.arguments.length ::
              ((e.function.arguments.map (describeArgStream cfg.describeTy e.function.isAsync)).flatten ++
                cfg.describeTy (exportRetTy e) ++ cfg.describeTy (exportInnerRetTy e)) }

/-- Shape of the return conversion of an imported function shim
(codegen.rs 1181-1237). -/
inductive ConvertRet
  | fromAbiTy (ty : RustType)
  | awaitExpect
  | awaitTry
  | unitRet
  | awaitExpectUnit
  | awaitTryUnit
deriving DecidableEq

/-- The shape of a generated import shim that the claims observe: the
resolved argument binder names, the return conversion, whether the
result is wrapped in Ok, and whether take_last_exception is checked
after the external call returns. -/
structure ImportShim where
  argNames : List String
  convert : ConvertRet
  okWrapped : Bool
  checksException : Bool
deriving DecidableEq

/-- Binder name resolution for one imported-function argument
(codegen.rs 1150-1162): plain binders keep their name, a wildcard gets a
generated name, any other pattern is a structural error. -/
def argNameOf (i : Nat) (p : Pat) : Except Diagnostic String :=
  match p with
  | Pat.identPat n => Except.ok n
  | Pat.wild => Except.ok ("__genarg_" ++ toString i)
  | Pat.other =>
      Except.error (Diagnostic.spanError "unsupported pattern in #[wasm_bindgen] imported function")

def importArgNames (args : List (Pat × RustType)) : Except Diagnostic (List String) :=
  args.enum.mapM (fun p => argNameOf p.1 p.2.1)

/-- Return conversion selection of an import (codegen.rs 1183-1237): a
declared reference return type is a structural error; otherwise async
returns go through a JsFuture (with the try form under catch and the
expect form otherwise) and sync returns through FromWasmAbi. -/
def importRetConvert (f : ImportFunction) : Except Diagnostic ConvertRet :=
  match f.jsRet with
  | some (RustType.ref _ _) =>
      Except.error (Diagnostic.spanError "cannot return references in #[wasm_bindgen] imports yet")
  | some ty =>
      if f.isAsync then
        (if f.catches then Except.ok ConvertRet.awaitTry else Except.ok ConvertRet.awaitExpect)
      else Except.ok (ConvertRet.fromAbiTy ty)
  | none =>
      if f.isAsync then
        (if f.catches then Except.ok ConvertRet.awaitTryUnit else Except.ok ConvertRet.awaitExpectUnit)
      else Except.ok ConvertRet.unitRet

/-- Transcription of TryToTokens for ast::ImportFunction (codegen.rs
1116-1331): resolve argument binders (can fail), resolve the return
conversion (can fail on a reference return), and for sync functions with
the catch flag wrap the converted result in Ok and insert the
take_last_exception check after the external call (codegen.rs
1239-1245). Nothing is added to the output on either failure, because
both bail sites run before any token emission. -/
def importFunctionToTokens (f : ImportFunction) : Except Diagnostic ImportShim :=
  match importArgNames f.arguments with
  | Except.error d => Except.error d
  | Except.ok names =>
      match importRetConvert f with
      | Except.error d => Except.error d
      | Except.ok convert =>
          let wrap := f.catches && !f.isAsync
          Except.ok { argNames := names, convert := convert,
                      okWrapped := wrap, checksException := wrap }

/-- The structured output stream of the generator: one constructor per
kind of generated block. descriptorRequest is an invocation of the
Descriptor emitter (still subject to process-wide deduplication);
descriptorFn is an actually emitted descriptor function body. -/
inductive Item
  | exportShimItem (shim : ExportShim)
  | descriptorRequest (ident : String) (inner : List DescItem)
  | descriptorFn (ident : String) (inner : List DescItem)
  | implWrapped (ns : String)
  | importShimItem (shim : ImportShim)
  | importStaticItem (s : ImportStatic)
  | importTypeItem (t : ImportType)
  | importEnumItem (e : ImportEnum)
  | structItem (s : Struct)
  | fieldGetterItem (getter : String)
  | fieldSetterItem (setter : String)
  | enumItem (e : Enum)
  | metadataStatic (bytes : List Nat)
deriving DecidableEq

def exportItems (out : ExportOutput) : List Item :=
  [Item.exportShimItem out.shim,
   Item.descriptorRequest out.descriptorIdent out.descriptorStream]

/-- Tokens generated per struct field (codegen.rs 377-461): the getter,
its descriptor (describing the field type), and a setter unless the
field is readonly. -/
def structFieldItems (cfg : Config) (f : StructField) : List Item :=
  [Item.fieldGetterItem f.getter, Item.descriptorRequest f.getter (cfg.describeTy f.ty)] ++
    (if f.readonly then [] else [Item.fieldSetterItem f.setter])

def structItems (cfg : Config) (s : Struct) : List Item :=
  Item.structItem s :: (s.fields.map (structFieldItems cfg)).flatten

/-- Return description of an imported function (codegen.rs 1350-1355):
the declared js return type, or JsValue for async functions without one,
or unit. -/
def importInformRet (cfg : Config) (f : ImportFunction) : List DescItem :=
  match f.jsRet with
  | some t => cfg.describeTy t
  | none => if f.isAsync then cfg.describeTy RustType.jsValue else cfg.describeTy RustType.unit

/-- Transcription of DescribeImport::to_tokens (codegen.rs 1340-1372):
only function imports get a descriptor; its body informs FUNCTION, 0,
the argument count, each argument description, and then the return
description twice. -/
def describeImportItems (cfg : Config) (k : ImportKind) : List Item :=
  match k with
  | ImportKind.function f =>
      [Item.descriptorRequest f.shim
        (DescItem.tag Tag.FUNCTION :: DescItem.val 0 :: DescItem.val f.arguments.length ::
          ((f.arguments.map (fun a => cfg.describeTy a.2)).flatten ++
            importInformRet cfg f ++ importInformRet cfg f))]
  | _ => []

/-- Transcription of TryToTokens for ast::ImportKind (codegen.rs
742-753) together with the lowerings it dispatches to; the static
lowering (codegen.rs 1435-1483) also registers a descriptor describing
the static type. -/
def importKindToTokens (cfg : Config) (k : ImportKind) : Except Diagnostic (List Item) :=
  match k with
  | ImportKind.function f =>
      match importFunctionToTokens f with
      | Except.error d => Except.error d
      | Except.ok shim => Except.ok [Item.importShimItem shim]
  | ImportKind.staticKind s =>
      Except.ok [Item.importStaticItem s, Item.descriptorRequest s.shim (cfg.describeTy s.ty)]
  | ImportKind.typeKind t => Except.ok [Item.importTypeItem t]
  | ImportKind.enumKind e => Except.ok [Item.importEnumItem e]

/-- The map from type names to idents built over the imports
(codegen.rs 40-45); only membership of a name is observed. -/
def typesMap (p : Program) : List String :=
  p.imports.filterMap (fun i =>
    match i.kind with
    | ImportKind.typeKind t => some t.rustName
    | _ => none)

/-- The namespace check of codegen.rs 53-74: the last namespace segment,
when it names a known imported type. -/
def importNsType (types : List String) (i : Import) : Option String :=
  match i.jsNamespace with
  | some nss =>
      match nss.getLast? with
      | some t => if t ∈ types then some t else none
      | none => none
  | none => none

/-- Lowering of one import inside the program loop (codegen.rs 46-79):
the DescribeImport descriptor is registered first; then, when the last
namespace segment names a known type and the kind fits on an impl, the
kind tokens are wrapped in an impl block, otherwise they are emitted
directly; an error from the kind lowering is collected and the loop
continues. The first component of the result is the list of collected
errors, the second the emitted items. -/
def importToTokens (cfg : Config) (types : List String) (i : Import) :
    List Diagnostic × List Item :=
  let descItems := describeImportItems cfg i.kind
  match importNsType types i with
  | some ns =>
      if cfg.fitsOnImpl i.kind then
        match importKindToTokens cfg i.kind with
        | Except.ok items => ([], descItems ++ (Item.implWrapped ns :: items))
        | Except.error d => ([d], descItems)
      else
        match importKindToTokens cfg i.kind with
        | Except.ok items => ([], descItems ++ items)
        | Except.error d => ([d], descItems)
  | none =>
      match importKindToTokens cfg i.kind with
      | Except.ok items => ([], descItems ++ items)
      | Except.error d => ([d], descItems)

/-- The JSON header written in front of the metadata blob (codegen.rs
92-96): schema version and tool version substituted into the fixed JSON
shape. -/
def prefixJson (schemaVersion toolVersion : String) : String :=
  "\x7b\"schema_version\":\"" ++ schemaVersion ++ "\",\"version\":\"" ++ toolVersion ++ "\"\x7d"

/-- Little-endian bytes of a u32, as produced by u32::to_le_bytes. -/
def u32leBytes (n : Nat) : List Nat :=
  [n % 256, n / 256 % 256, n / 65536 % 256, n / 16777216 % 256]

/-- Transcription of the byte construction in codegen.rs 92-104: the
header length as u32 (the cast truncates modulo 2^32) in little-endian,
then the header bytes, then the encoded declaration list. -/
def generatedStaticBytes (cfg : Config) (encoded : List Nat) : List Nat :=
  let pj := prefixJson cfg.schemaVersion cfg.toolVersion
  let len := (strBytes pj).length % 4294967296
  u32leBytes len ++ (strBytes pj ++ encoded)

/-- Layout written from the words of the spec (section 6): u32le length,
then exactly that many bytes of the JSON header, then the encoded
declaration list bytes, and nothing else. -/
def metadataBlobSpec (schemaVersion toolVersion : String) (encoded : List Nat) : List Nat :=
  u32leBytes (strBytes (prefixJson schemaVersion toolVersion)).length ++
    (strBytes (prefixJson schemaVersion toolVersion) ++ encoded)

def exportStep (cfg : Config) (acc : List Diagnostic × List Item) (e : Export) :
    List Diagnostic × List Item :=
  match exportToTokens cfg e with
  | Except.ok out => (acc.1, acc.2 ++ exportItems out)
  | Except.error d => (acc.1 ++ [d], acc.2)

def importStep (cfg : Config) (types : List String) (acc : List Diagnostic × List Item)
    (i : Import) : List Diagnostic × List Item :=
  let r := importToTokens cfg types i
  (acc.1 ++ r.1, acc.2 ++ r.2)

/-- The declaration pass of TryToTokens for ast::Program (codegen.rs
31-83): exports are lowered first with errors collected, then structs
(infallible), then imports with errors collected, then enums
(infallible). Result: collected errors and emitted items. -/
def programPass (cfg : Config) (p : Program) : List Diagnostic × List Item :=
  let afterExports := p.exports.foldl (exportStep cfg) ([], [])
  let withStructs := (afterExports.1, afterExports.2 ++ (p.structs.map (structItems cfg)).flatten)
  let afterImports := p.imports.foldl (importStep cfg (typesMap p)) withStructs
  (afterImports.1, afterImports.2 ++ p.enums.map Item.enumItem)

/-- Transcription of TryToTokens for ast::Program (codegen.rs 28-136):
run the declaration pass, report all collected errors together via
from_vec, then encode the declaration list and append the metadata
static as the final generated item. -/
def programToTokens (cfg : Config) (p : Program) : Except Diagnostic (List Item) :=
  match fromVec (programPass cfg p).1 with
  | Except.error d => Except.error d
  | Except.ok _ =>
      match cfg.encodeResult with
      | Except.error d => Except.error d
      | Except.ok encoded =>
          Except.ok ((programPass cfg p).2 ++
            [Item.metadataStatic (generatedStaticBytes cfg encoded)])

/-- Transcription of Descriptor::to_tokens (codegen.rs 1494-1537). The
process-wide registry DESCRIPTORS_EMITTED is a mutex-guarded set of
symbol names; one invocation atomically checks membership and inserts,
and emits the descriptor function body only when the name was absent.
The mutex serializes invocations, so a run of concurrent invocations is
modelled as a fold over the serialization order (runDescriptors). -/
def descriptorToTokens (st : List String) (ident : String) (inner : List DescItem) :
    List String × List Item :=
  if ident ∈ st then (st, [])
  else (ident :: st, [Item.descriptorFn ident inner])

def runDescriptors : List String → List (String × List DescItem) → List String × List Item
  | st, [] => (st, [])
  | st, r :: rest =>
      let step := descriptorToTokens st r.1 r.2
      let restRun := runDescriptors step.1 rest
      (restRun.1, step.2 ++ restRun.2)

def countDescriptorFns (name : String) (items : List Item) : Nat :=
  items.countP (fun it =>
    match it with
    | Item.descriptorFn n _ => n == name
    | _ => false)

/-- A host value as observed by the generated code: its ABI index for
generic host-value passing, and what as_string returns on it (the host string
form when the value is a string). Both observations are host-side
behavior outside src/. -/
structure JsValue where
  abiIdx : Nat
  asString : Option String
deriving DecidableEq

/-- Modelled from the spec (section 3, Borrow-Guard State): the dynamic
borrow state of one WasmRefCell; the cell type itself lives in the
wasm-bindgen runtime, outside src/. -/
inductive BorrowState
  | unborrowed
  | sharedBorrow (n : Nat)
  | exclusiveBorrow
deriving DecidableEq

structure WasmRefCell (A : Type) where
  value : A
  borrow : BorrowState
deriving DecidableEq

/-- The heap of boxed, borrow-guarded struct instances, keyed by the
nonzero pointer value that crosses the boundary as a handle. -/
abbrev Heap (A : Type) : Type := List (Nat × WasmRefCell A)

def heapGet {A : Type} (h : Heap A) (ptr : Nat) : Option (WasmRefCell A) :=
  (h.find? (fun q => q.1 == ptr)).map Prod.snd

def heapRemove {A : Type} (h : Heap A) (ptr : Nat) : Heap A :=
  h.filter (fun q => q.1 != ptr)

/-- Semantics of the FromWasmAbi impl generated for an exported struct
(codegen.rs 202-216): assert the pointer is non-null (fatal otherwise,
modelled as none), take the box back, assert nobody is borrowing (the
borrow_mut call aborts otherwise), and move the value out. A pointer not
backed by a live allocation is undefined behavior and also modelled as
fatal. -/
def structFromAbi {A : Type} (h : Heap A) (js : Nat) : Option (A × Heap A) :=
  if js = 0 then none
  else
    match heapGet h js with
    | none => none
    | some cell =>
        if cell.borrow = BorrowState.unborrowed then some (cell.value, heapRemove h js)
        else none

/-- Semantics of the generated TryFrom JsValue impl for an exported
struct (codegen.rs 299-331): obtain the ABI index of the host value by
reference, call the host unwrap shim (which validates the host-side
type-check marker and returns the instance pointer, or the zero
sentinel); on zero return the untouched original value as the error; on
success forget the original value and reclaim the instance through the
from-handle path. -/
def structTryFromJsValue {A : Type} (unwrapShim : Nat → Nat) (h : Heap A) (value : JsValue) :
    Option (Except JsValue (A × Heap A)) :=
  let idx := value.abiIdx
  let ptr := unwrapShim idx
  if ptr = 0 then some (Except.error value)
  else
    match structFromAbi h ptr with
    | none => none
    | some r => some (Except.ok r)

/-- What the host does on one external call: return an ABI value or
throw an exception. -/
inductive HostCall
  | returns (abi : Nat)
  | throwsException (e : JsValue)
deriving DecidableEq

/-- Observable outcome of one generated import shim invocation: a plain
value, an Ok-wrapped value, a locally recoverable Err carrying the
exception, or a fatal abort of the call path. -/
inductive ShimOutcome
  | plain (abi : Nat)
  | okResult (abi : Nat)
  | errResult (e : JsValue)
  | fatalAbort
deriving DecidableEq

/-- Modelled from the spec (section 7): runtime semantics of the
generated sync import shim. With the exception check present, a host
throw is stored by the glue and take_last_exception turns it into a
local Err, while a normal return passes the check and is Ok-wrapped;
without the check a host throw propagates as a fatal abort of the call
path and a normal return is converted directly. take_last_exception and
the host-side glue live outside src/. -/
def evalImportShimSync (shim : ImportShim) (host : HostCall) : ShimOutcome :=
  match host with
  | HostCall.throwsException e =>
      if shim.checksException then ShimOutcome.errResult e else ShimOutcome.fatalAbort
  | HostCall.returns v =>
      if shim.okWrapped then ShimOutcome.okResult v else ShimOutcome.plain v

/-- Modelled from the spec (sections 4.5 and 7): runtime semantics of
the generated async import shim return conversion (codegen.rs
1191-1236). The external call returns a deferred host value which the
shim awaits (JsFuture is outside src/); the awaited result is the
resolved ABI value or, on a rejected promise, the host exception. The
try conversions emitted under catch forward a rejection as a local Err
and wrap a resolution in Ok, while the expect conversions emitted
without catch turn a rejection into a fatal abort (panic) and pass a
resolution through plain; the unit variants discard the resolved
payload, represented here by the ABI value 0. A sync conversion never
awaits a deferred value, so those shapes yield none. -/
def evalImportShimAwait (shim : ImportShim) (res : Except JsValue Nat) : Option ShimOutcome :=
  match shim.convert, res with
  | ConvertRet.awaitTry, Except.ok v => some (ShimOutcome.okResult v)
  | ConvertRet.awaitTry, Except.error e => some (ShimOutcome.errResult e)
  | ConvertRet.awaitTryUnit, Except.ok _ => some (ShimOutcome.okResult 0)
  | ConvertRet.awaitTryUnit, Except.error e => some (ShimOutcome.errResult e)
  | ConvertRet.awaitExpect, Except.ok v => some (ShimOutcome.plain v)
  | ConvertRet.awaitExpect, Except.error _ => some ShimOutcome.fatalAbort
  | ConvertRet.awaitExpectUnit, Except.ok _ => some (ShimOutcome.plain 0)
  | ConvertRet.awaitExpectUnit, Except.error _ => some ShimOutcome.fatalAbort
  | ConvertRet.fromAbiTy _, _ => none
  | ConvertRet.unitRet, _ => none

/-- Values of a generated imported enum: a declared variant by index, or
the hidden nonexhaustive variant. -/
inductive ImportEnumValue
  | variantIdx (i : Nat)
  | nonexhaustive
deriving DecidableEq

/-- Index of the first matching string, mirroring the ordered match arms
of the generated from_str (codegen.rs 1047-1052). -/
def firstMatchIdx : List String → String → Option Nat
  | [], _ => none
  | v :: rest, s => if v = s then some 0 else (firstMatchIdx rest s).map (fun k => k + 1)

def importEnumFromStr (e : ImportEnum) (s : String) : Option ImportEnumValue :=
  (firstMatchIdx e.variantValues s).map ImportEnumValue.variantIdx

/-- Semantics of the generated from_js_value (codegen.rs 1061-1063):
as_string, then from_str on the string form. -/
def importEnumFromJsValue (e : ImportEnum) (obj : JsValue) : Option ImportEnumValue :=
  obj.asString.bind (fun s => importEnumFromStr e s)

/-- Semantics of the generated FromWasmAbi for an imported enum
(codegen.rs 1084-1092): decode the host value and fall back to the
hidden nonexhaustive variant on any failure; never fatal. -/
def importEnumFromAbi (e : ImportEnum) (obj : JsValue) : ImportEnumValue :=
  (importEnumFromJsValue e obj).getD ImportEnumValue.nonexhaustive

/-- Semantics of the generated to_str (codegen.rs 1054-1059): the
variant string for a declared variant, and a panic (modelled as none)
for the hidden nonexhaustive variant. -/
def importEnumToStr (e : ImportEnum) (v : ImportEnumValue) : Option String :=
  match v with
  | ImportEnumValue.variantIdx i => e.variantValues.get? i
  | ImportEnumValue.nonexhaustive => none

/-- Semantics of the generated FromWasmAbi for an exported enum
(codegen.rs 1398-1408): the cascade of discriminant comparisons returns
the first matching variant, and throw_str (a fatal abort, modelled as
none) fires when no variant matches. -/
def enumFromAbi (e : Enum) (js : Nat) : Option String :=
  (e.variants.find? (fun v => v.2 == js)).map Prod.fst

def errOf {A : Type} : Except Diagnostic A → Option Diagnostic
  | Except.error d => some d
  | Except.ok _ => none

/-- The structural errors contributed by the export loop, in
declaration order. -/
def exportErrors (cfg : Config) (p : Program) : List Diagnostic :=
  p.exports.filterMap (fun e => errOf (exportToTokens cfg e))

/-- The structural errors contributed by the import loop, in
declaration order. -/
def importErrors (cfg : Config) (p : Program) : List Diagnostic :=
  p.imports.filterMap (fun i => errOf (importKindToTokens cfg i.kind))

/-- A concrete describe function for evaluating the model on examples:
exported-struct names use the in-file struct describe body, the other
cases stand for the external WasmDescribe impls. -/
def describeTy0 : RustType → List DescItem
  | RustType.named s => structDescribe s
  | RustType.unit => [DescItem.val 1]
  | RustType.jsValue => [DescItem.val 2]
  | RustType.ref true _ => [DescItem.val 7]
  | RustType.ref false _ => [DescItem.val 8]

def cfg0 : Config :=
  { describeTy := describeTy0, fitsOnImpl := fun _ => false,
    schemaVersion := "1", toolVersion := "2", encodeResult := Except.ok [9] }

/-- A sync export whose declared return type is an exclusive reference. -/
def exportRetMutRef : Export :=
  { exportName := "f",
    function := { arguments := [], ret := some (RustType.ref true RustType.unit), isAsync := false },
    start := false, methodSelf := none }

/-- An import whose declared return type is an exclusive reference. -/
def importRetMutRef : ImportFunction :=
  { shim := "g", arguments := [], jsRet := some (RustType.ref true RustType.unit),
    isAsync := false, catches := false }

/-- A sync export with no arguments returning an exported struct type. -/
def exportRetStruct : Export :=
  { exportName := "f",
    function := { arguments := [], ret := some (RustType.named "A"), isAsync := false },
    start := false, methodSelf := none }

/-- The lowering output of exportRetStruct under cfg0. -/
def exportRetStructOut : ExportOutput :=
  { shim := { hasReceiverSlot := false, argConvs := [] },
    descriptorIdent := "f",
    descriptorStream :=
      DescItem.tag Tag.FUNCTION :: DescItem.val 0 :: DescItem.val 0 ::
        (([] : List DescItem) ++ structDescribe "A" ++ structDescribe "A") }

/-- An async export taking one exclusive (mutable) reference argument. -/
def exportAsyncMutArg : Export :=
  { exportName := "h",
    function := { arguments := [RustType.ref true (RustType.named "A")], ret := none,
                  isAsync := true },
    start := false, methodSelf := none }

/-- An async export taking one shared and one exclusive reference. -/
def exportAsyncRefs : Export :=
  { exportName := "k",
    function := { arguments := [RustType.ref false (RustType.named "A"),
                                RustType.ref true (RustType.named "B")],
                  ret := none, isAsync := true },
    start := false, methodSelf := none }

/-- The lowering output of exportAsyncRefs under cfg0. -/
def exportAsyncRefsOut : ExportOutput :=
  { shim := { hasReceiverSlot := false,
              argConvs := [{ ident := "arg" ++ toString 0, lowering := ArgLowering.longRef },
                           { ident := "arg" ++ toString 1, lowering := ArgLowering.refMut }] },
    descriptorIdent := "k",
    descriptorStream :=
      DescItem.tag Tag.FUNCTION :: DescItem.val 0 :: DescItem.val 2 ::
        ((exportAsyncRefs.function.arguments.map (describeArgStream describeTy0 true)).flatten ++
          describeTy0 RustType.jsValue ++ describeTy0 RustType.unit) }

/-- The empty program, used to evaluate the metadata layout. -/
def programEmpty : Program := { exports := [], structs := [], imports := [], enums := [] }

/-- A program with two exports that both fail structurally. -/
def programTwoBad : Program :=
  { exports := [exportRetMutRef,
                { exportName := "f2",
                  function := { arguments := [], ret := some (RustType.ref false RustType.unit),
                                isAsync := false },
                  start := false, methodSelf := none }],
    structs := [], imports := [], enums := [] }

/-- A one-cell heap holding the value 42 at pointer 5, unborrowed. -/
def heapExample : Heap Nat := [(5, { value := 42, borrow := BorrowState.unborrowed })]

/-- A sync import with the catch flag set. -/
def importCatch : ImportFunction :=
  { shim := "hostFn", arguments := [], jsRet := some RustType.jsValue,
    isAsync := false, catches := true }

/-- The lowering output of importCatch. -/
def importCatchShim : ImportShim :=
  { argNames := [], convert := ConvertRet.fromAbiTy RustType.jsValue,
    okWrapped := true, checksException := true }

/-- A sync import without the catch flag. -/
def importNoCatch : ImportFunction :=
  { shim := "hostFn2", arguments := [], jsRet := some RustType.jsValue,
    isAsync := false, catches := false }

/-- The lowering output of importNoCatch. -/
def importNoCatchShim : ImportShim :=
  { argNames := [], convert := ConvertRet.fromAbiTy RustType.jsValue,
    okWrapped := false, checksException := false }

/-- An async import with the catch flag set. -/
def importAsyncCatch : ImportFunction :=
  { shim := "hostAsync", arguments := [], jsRet := some RustType.jsValue,
    isAsync := true, catches := true }

/-- The lowering output of importAsyncCatch: the try conversion, and no
pending-exception check. -/
def importAsyncCatchShim : ImportShim :=
  { argNames := [], convert := ConvertRet.awaitTry,
    okWrapped := false, checksException := false }

/-- An async import without the catch flag. -/
def importAsyncNoCatch : ImportFunction :=
  { shim := "hostAsync2", arguments := [], jsRet := some RustType.jsValue,
    isAsync := true, catches := false }

/-- The lowering output of importAsyncNoCatch. -/
def importAsyncNoCatchShim : ImportShim :=
  { argNames := [], convert := ConvertRet.awaitExpect,
    okWrapped := false, checksException := false }

/-- An imported enum with two variants. -/
def importEnumExample : ImportEnum :=
  { name := "Color", variants := ["Red", "Green"], variantValues := ["red", "green"] }

/-- An exported enum with two variants and hole 2. -/
def enumExample : Enum := { rustName := "Dir", variants := [("Up", 0), ("Down", 1)], hole := 2 }

/-- C7: for every argument name and every ABI type, splat produces
exactly 4 primitive parameters regardless of the ABI type, the i-th
parameter (0-based i, so slot number i + 1) is named name_(i+1) and is
typed as the Prim (i+1) component of the given ABI type, and the
returned names list equals the names of the produced parameters in
order. -/
theorem c7_splat_shape {A : Type} (abi : A) (name : String) :
    (splat abi name).1.length = 4 ∧
    (∀ i, i < 4 →
      ((splat abi name).1.get? i).map SplatArg.argName =
        some (name ++ "_" ++ toString (i + 1)) ∧
      ((splat abi name).1.get? i).map SplatArg.abi = some abi ∧
      ((splat abi name).1.get? i).map SplatArg.primIndex = some (i + 1)) ∧
    (splat abi name).2 = (splat abi name).1.map SplatArg.argName := by
  have hs : splat abi name =
      ([{ argName := name ++ "_" ++ toString 1, abi := abi, primIndex := 1 },
        { argName := name ++ "_" ++ toString 2, abi := abi, primIndex := 2 },
        { argName := name ++ "_" ++ toString 3, abi := abi, primIndex := 3 },
        { argName := name ++ "_" ++ toString 4, abi := abi, primIndex := 4 }],
       [name ++ "_" ++ toString 1, name ++ "_" ++ toString 2,
        name ++ "_" ++ toString 3, name ++ "_" ++ toString 4]) := rfl
  refine ⟨by rw [hs]; rfl, ?_, by rw [hs]; rfl⟩
  intro i hi
  interval_cases i <;> simp [hs]

/-- C7 witness: the parameter in slot 2 produced for name val is named
val_2 with primitive index 2. -/
theorem c7_splat_shape_witness :
    ((splat (0 : Nat) "val").1.get? 1).map SplatArg.argName =
      some ("val" ++ "_" ++ toString (1 + 1)) :=
  ((c7_splat_shape (0 : Nat) "val").2.1 1 (by decide)).1

/-- C1: over any serialized sequence of descriptor-generator invocations
starting from any registry state, the number of descriptor function
bodies emitted for a given symbol name is zero if the registry already
held the name, one if any invocation requests the name, and zero
otherwise; in particular at most one body is ever emitted per name, the
first requesting invocation emits it and every later one emits
nothing. -/
theorem c1_descriptor_dedup (st : List String) (reqs : List (String × List DescItem))
    (name : String) :
    countDescriptorFns name (runDescriptors st reqs).2 =
      (if name ∈ st then 0 else if name ∈ reqs.map Prod.fst then 1 else 0) ∧
    countDescriptorFns name (runDescriptors st reqs).2 ≤ 1 := by
  have key : ∀ (rs : List (String × List DescItem)) (s : List String),
      countDescriptorFns name (runDescriptors s rs).2 =
        (if name ∈ s then 0 else if name ∈ rs.map Prod.fst then 1 else 0) := by
    intro rs
    induction rs with
    | nil =>
        intro s
        simp [runDescriptors, countDescriptorFns]
    | cons r rest ih =>
        intro s
        by_cases hs : r.1 ∈ s
        · have hstep : descriptorToTokens s r.1 r.2 = (s, []) := by
            simp [descriptorToTokens, hs]
          rw [runDescriptors, hstep]
          simp only [List.nil_append]
          rw [ih s]
          by_cases hn : name ∈ s
          · simp [hn]
          · have hne : name ≠ r.1 := fun h => hn (h ▸ hs)
            simp only [List.map_cons, List.mem_cons]
            rw [if_neg hn, if_neg hn]
            have hiff : (name = r.1 ∨ name ∈ rest.map Prod.fst) ↔ (name ∈ rest.map Prod.fst) :=
              ⟨fun h => h.elim (fun h1 => absurd h1 hne) id, Or.inr⟩
            rw [if_congr hiff rfl rfl]
        · have hstep : descriptorToTokens s r.1 r.2 = (r.1 :: s, [Item.descriptorFn r.1 r.2]) := by
            simp [descriptorToTokens, hs]
          rw [runDescriptors, hstep]
          simp only [countDescriptorFns, List.countP_append] at *
          rw [ih (r.1 :: s)]
          by_cases hrn : r.1 = name
          · subst hrn
            simp [hs, List.countP_cons]
          · have hne : name ≠ r.1 := fun h => hrn h.symm
            by_cases hn : name ∈ s
            · simp [hn, hne, List.countP_cons, hrn]
            · simp only [List.map_cons, List.mem_cons, List.countP_cons, List.countP_nil,
                beq_iff_eq]
              rw [if_neg hrn]
              have h1 : ¬(name = r.1 ∨ name ∈ s) :=
                fun h => h.elim (fun h2 => hne h2) (fun h2 => hn h2)
              rw [if_neg hn, if_neg h1]
              simp only [Nat.zero_add, Nat.add_zero]
              exact (if_congr ⟨fun h => h.elim (fun h2 => absurd h2 hne) id, Or.inr⟩ rfl rfl).symm
  refine ⟨key reqs st, ?_⟩
  rw [key reqs st]
  by_cases h1 : name ∈ st
  · simp [h1]
  · by_cases h2 : name ∈ reqs.map Prod.fst <;> simp [h1, h2]

/-- Inversion of a successful export lowering: the produced output is
exactly the shim and descriptor built by exportToTokens. -/
theorem exportToTokens_ok_inv (cfg : Config) (e : Export) (out : ExportOutput)
    (h : exportToTokens cfg e = Except.ok out) :
    out =
      { shim := { hasReceiverSlot := e.methodSelf.isSome,
                  argConvs := exportArgConvs e.function.isAsync
                    (if e.methodSelf.isSome then 1 else 0) e.function.arguments },
        descriptorIdent := e.exportName,
        descriptorStream :=
          DescItem.tag Tag.FUNCTION :: DescItem.val 0 ::
            DescItem.val e.function.arguments.length ::
            ((e.function.arguments.map
                (describeArgStream cfg.describeTy e.function.isAsync)).flatten ++
              cfg.describeTy (exportRetTy e) ++ cfg.describeTy (exportInnerRetTy e)) } := by
  unfold exportToTokens at h
  cases hr : e.function.ret.getD RustType.unit with
  | ref m elem =>
      rw [hr] at h
      exact absurd h (by simp)
  | unit =>
      rw [hr] at h
      exact (Except.ok.inj h).symm
  | jsValue =>
      rw [hr] at h
      exact (Except.ok.inj h).symm
  | named s =>
      rw [hr] at h
      exact (Except.ok.inj h).symm

theorem exportArgConvs_map (a : Bool) (i : Nat) (l : List RustType) :
    (exportArgConvs a i l).map ArgConv.lowering = l.map (argLowering a) := by
  induction l generalizing i with
  | nil => rfl
  | cons t rest ih => simp [exportArgConvs, ih]

/-- C2: a function-like declaration (exported or imported) whose
declared return type is an exclusive (mutable) reference fails lowering
with a generation-time Diagnostic, and no shim is produced for it (the
lowering result is the error, not an output). -/
theorem c2_mut_ref_return_rejected :
    (∀ (cfg : Config) (e : Export) (elem : RustType),
      e.function.ret = some (RustType.ref true elem) →
      exportToTokens cfg e =
        Except.error (Diagnostic.spanError "cannot return a borrowed ref with #[wasm_bindgen]")) ∧
    (∀ (f : ImportFunction) (elem : RustType),
      f.jsRet = some (RustType.ref true elem) →
      ∃ d, importFunctionToTokens f = Except.error d) := by
  constructor
  · intro cfg e elem h
    unfold exportToTokens
    rw [h]
    rfl
  · intro f elem h
    cases hn : importArgNames f.arguments with
    | error d => exact ⟨d, by simp [importFunctionToTokens, hn]⟩
    | ok names =>
        exact ⟨Diagnostic.spanError "cannot return references in #[wasm_bindgen] imports yet",
          by simp [importFunctionToTokens, hn, importRetConvert, h]⟩

/-- C2 witness: a concrete export and a concrete import with a mutable
reference return type are both rejected. -/
theorem c2_mut_ref_return_rejected_witness :
    exportToTokens cfg0 exportRetMutRef =
      Except.error (Diagnostic.spanError "cannot return a borrowed ref with #[wasm_bindgen]") ∧
    ∃ d, importFunctionToTokens importRetMutRef = Except.error d :=
  ⟨c2_mut_ref_return_rejected.1 cfg0 exportRetMutRef RustType.unit rfl,
   c2_mut_ref_return_rejected.2 importRetMutRef RustType.unit rfl⟩

/-- C3 counterexample: for a sync export with no arguments returning an
exported struct type, the descriptor stream is not FUNCTION, marker,
count, argument descriptions and a single return description: the
return description appears twice. -/
theorem c3_single_return_description_false :
    ¬ ((exportToTokens cfg0 exportRetStruct).toOption.map ExportOutput.descriptorStream =
        some ([DescItem.tag Tag.FUNCTION, DescItem.val 0, DescItem.val 0] ++
          structDescribe "A")) := by
  decide

/-- C3 (amended): for every function-like boundary symbol the descriptor
stream is exactly the FUNCTION tag, the receiver marker 0, the argument
count, one description per argument in declaration order, and then two
type descriptions for the return: for exports the outer return type
followed by the inner return type (identical for sync non-start
functions), and for imports the return description emitted twice. -/
theorem c3_descriptor_stream_shape :
    (∀ (cfg : Config) (e : Export) (out : ExportOutput),
      exportToTokens cfg e = Except.ok out →
      out.descriptorStream =
        DescItem.tag Tag.FUNCTION :: DescItem.val 0 ::
          DescItem.val e.function.arguments.length ::
          ((e.function.arguments.map
              (describeArgStream cfg.describeTy e.function.isAsync)).flatten ++
            cfg.describeTy (exportRetTy e) ++ cfg.describeTy (exportInnerRetTy e))) ∧
    (∀ (cfg : Config) (f : ImportFunction),
      describeImportItems cfg (ImportKind.function f) =
        [Item.descriptorRequest f.shim
          (DescItem.tag Tag.FUNCTION :: DescItem.val 0 :: DescItem.val f.arguments.length ::
            ((f.arguments.map (fun a => cfg.describeTy a.2)).flatten ++
              importInformRet cfg f ++ importInformRet cfg f))]) := by
  constructor
  · intro cfg e out h
    rw [exportToTokens_ok_inv cfg e out h]
  · intro cfg f
    rfl

/-- C3 witness: the amended stream shape evaluated on the concrete
export returning a struct. -/
theorem c3_descriptor_stream_shape_witness :
    exportRetStructOut.descriptorStream =
      DescItem.tag Tag.FUNCTION :: DescItem.val 0 ::
        DescItem.val exportRetStruct.function.arguments.length ::
        ((exportRetStruct.function.arguments.map
            (describeArgStream cfg0.describeTy exportRetStruct.function.isAsync)).flatten ++
          cfg0.describeTy (exportRetTy exportRetStruct) ++
          cfg0.describeTy (exportInnerRetTy exportRetStruct)) :=
  c3_descriptor_stream_shape.1 cfg0 exportRetStruct exportRetStructOut rfl

/-- C4 counterexample: an async export with one exclusive (mutable)
reference argument is not lowered through the long-borrow anchor and its
descriptor stream does not mark the argument with LONGREF. -/
theorem c4_mut_ref_longref_false :
    ¬ ((exportToTokens cfg0 exportAsyncMutArg).toOption.map
          (fun o => o.shim.argConvs.map ArgConv.lowering) =
        some [ArgLowering.longRef]) ∧
    ¬ ((exportToTokens cfg0 exportAsyncMutArg).toOption.map ExportOutput.descriptorStream =
        some (DescItem.tag Tag.FUNCTION :: DescItem.val 0 :: DescItem.val 1 ::
          ((DescItem.tag Tag.LONGREF :: describeTy0 (RustType.named "A")) ++
            describeTy0 RustType.jsValue ++ describeTy0 RustType.unit))) := by
  constructor <;> decide

/-- C4 (amended): for async exports only shared (immutable) reference
arguments are lowered through the long-borrow anchor and marked LONGREF
before the referent description; exclusive (mutable) reference
arguments keep the ordinary exclusive borrow and are described by the
reference type itself with no LONGREF marker; and the lowering recorded
in the generated shim follows argLowering argument by argument. -/
theorem c4_async_ref_lowering :
    (∀ (d : RustType → List DescItem) (elem : RustType),
      argLowering true (RustType.ref false elem) = ArgLowering.longRef ∧
      describeArgStream d true (RustType.ref false elem) =
        DescItem.tag Tag.LONGREF :: d elem) ∧
    (∀ (d : RustType → List DescItem) (elem : RustType),
      argLowering true (RustType.ref true elem) = ArgLowering.refMut ∧
      describeArgStream d true (RustType.ref true elem) = d (RustType.ref true elem)) ∧
    (∀ (cfg : Config) (e : Export) (out : ExportOutput),
      exportToTokens cfg e = Except.ok out →
      out.shim.argConvs.map ArgConv.lowering =
        e.function.arguments.map (argLowering e.function.isAsync)) := by
  refine ⟨fun d elem => ⟨rfl, rfl⟩, fun d elem => ⟨rfl, rfl⟩, ?_⟩
  intro cfg e out h
  rw [exportToTokens_ok_inv cfg e out h]
  exact exportArgConvs_map _ _ _

/-- C4 witness: the async export with one shared and one mutable
reference argument is lowered to longRef then refMut. -/
theorem c4_async_ref_lowering_witness :
    exportAsyncRefsOut.shim.argConvs.map ArgConv.lowering =
      exportAsyncRefs.function.arguments.map
        (argLowering exportAsyncRefs.function.isAsync) :=
  c4_async_ref_lowering.2.2 cfg0 exportAsyncRefs exportAsyncRefsOut rfl

/-- The byte construction of codegen.rs 92-104 agrees with the layout
stated by the spec whenever the header length fits in a u32. -/
theorem generatedStaticBytes_eq_spec (cfg : Config) (encoded : List Nat)
    (hlen : (strBytes (prefixJson cfg.schemaVersion cfg.toolVersion)).length < 4294967296) :
    generatedStaticBytes cfg encoded =
      metadataBlobSpec cfg.schemaVersion cfg.toolVersion encoded := by
  simp only [generatedStaticBytes, metadataBlobSpec]
  rw [Nat.mod_eq_of_lt hlen]

/-- C5: on every successful lowering the final generated item is the
metadata static whose bytes are exactly the header length as 4-byte
little-endian u32, then the JSON header bytes, then the encoded
declaration list bytes, with nothing before or after: taking 4 bytes
yields the length prefix, the next header-length bytes are the header,
and the remainder is precisely the encoded declaration list. -/
theorem c5_metadata_layout (cfg : Config) (p : Program) (items : List Item) (encoded : List Nat)
    (hok : programToTokens cfg p = Except.ok items)
    (henc : cfg.encodeResult = Except.ok encoded)
    (hlen : (strBytes (prefixJson cfg.schemaVersion cfg.toolVersion)).length < 4294967296) :
    items.getLast? =
      some (Item.metadataStatic (metadataBlobSpec cfg.schemaVersion cfg.toolVersion encoded)) ∧
    (metadataBlobSpec cfg.schemaVersion cfg.toolVersion encoded).take 4 =
      u32leBytes (strBytes (prefixJson cfg.schemaVersion cfg.toolVersion)).length ∧
    ((metadataBlobSpec cfg.schemaVersion cfg.toolVersion encoded).drop 4).take
        (strBytes (prefixJson cfg.schemaVersion cfg.toolVersion)).length =
      strBytes (prefixJson cfg.schemaVersion cfg.toolVersion) ∧
    ((metadataBlobSpec cfg.schemaVersion cfg.toolVersion encoded).drop 4).drop
        (strBytes (prefixJson cfg.schemaVersion cfg.toolVersion)).length = encoded := by
  have h4 : (u32leBytes (strBytes (prefixJson cfg.schemaVersion cfg.toolVersion)).length).length
      = 4 := rfl
  have hdrop : (metadataBlobSpec cfg.schemaVersion cfg.toolVersion encoded).drop 4 =
      strBytes (prefixJson cfg.schemaVersion cfg.toolVersion) ++ encoded := by
    unfold metadataBlobSpec
    rw [← h4, List.drop_left]
  refine ⟨?_, ?_, ?_, ?_⟩
  · unfold programToTokens at hok
    rw [henc] at hok
    cases hfv : fromVec (programPass cfg p).1 with
    | error d =>
        rw [hfv] at hok
        exact absurd hok (by simp)
    | ok u =>
        rw [hfv] at hok
        have hitems := (Except.ok.inj hok).symm
        rw [hitems, List.getLast?_concat, generatedStaticBytes_eq_spec cfg encoded hlen]
  · unfold metadataBlobSpec
    rw [← h4, List.take_left]
  · rw [hdrop, List.take_left]
  · rw [hdrop, List.drop_left]

/-- C5 witness: the layout evaluated on the empty program with schema
version 1, tool version 2 and encoded bytes 9. -/
theorem c5_metadata_layout_witness :
    ([Item.metadataStatic (metadataBlobSpec "1" "2" [9])] : List Item).getLast? =
      some (Item.metadataStatic (metadataBlobSpec "1" "2" [9])) ∧
    (metadataBlobSpec "1" "2" [9]).take 4 =
      u32leBytes (strBytes (prefixJson "1" "2")).length ∧
    ((metadataBlobSpec "1" "2" [9]).drop 4).take (strBytes (prefixJson "1" "2")).length =
      strBytes (prefixJson "1" "2") ∧
    ((metadataBlobSpec "1" "2" [9]).drop 4).drop (strBytes (prefixJson "1" "2")).length = [9] :=
  c5_metadata_layout cfg0 programEmpty
    [Item.metadataStatic (metadataBlobSpec "1" "2" [9])] [9] rfl rfl (by decide)

theorem exportFold_fst (cfg : Config) (l : List Export) (acc : List Diagnostic × List Item) :
    (l.foldl (exportStep cfg) acc).1 =
      acc.1 ++ l.filterMap (fun e => errOf (exportToTokens cfg e)) := by
  induction l generalizing acc with
  | nil => simp
  | cons e rest ih =>
      rw [List.foldl_cons, ih]
      cases h : exportToTokens cfg e with
      | ok out => simp [exportStep, errOf, h]
      | error d => simp [exportStep, errOf, h]

theorem importToTokens_fst (cfg : Config) (types : List String) (i : Import) :
    (importToTokens cfg types i).1 =
      (match importKindToTokens cfg i.kind with
       | Except.error d => [d]
       | Except.ok _ => []) := by
  unfold importToTokens
  cases hns : importNsType types i with
  | none => cases hk : importKindToTokens cfg i.kind <;> simp [hk]
  | some ns =>
      by_cases hf : cfg.fitsOnImpl i.kind
      · cases hk : importKindToTokens cfg i.kind <;> simp [hf, hk]
      · cases hk : importKindToTokens cfg i.kind <;> simp [hf, hk]

theorem importFold_fst (cfg : Config) (types : List String) (l : List Import)
    (acc : List Diagnostic × List Item) :
    (l.foldl (importStep cfg types) acc).1 =
      acc.1 ++ l.filterMap (fun i => errOf (importKindToTokens cfg i.kind)) := by
  induction l generalizing acc with
  | nil => simp
  | cons i rest ih =>
      rw [List.foldl_cons, ih]
      have h1 := importToTokens_fst cfg types i
      cases hk : importKindToTokens cfg i.kind with
      | ok its =>
          rw [hk] at h1
          simp [importStep, errOf, hk, h1]
      | error d =>
          rw [hk] at h1
          simp [importStep, errOf, hk, h1, List.append_assoc]

theorem programPass_fst (cfg : Config) (p : Program) :
    (programPass cfg p).1 = exportErrors cfg p ++ importErrors cfg p := by
  simp only [programPass]
  rw [importFold_fst]
  simp only []
  rw [exportFold_fst]
  simp [exportErrors, importErrors]

/-- C6: a structural error in one declaration does not stop the pass:
the collected error list is the filterMap of the per-declaration
lowering errors over all exports and then all imports in order, and
whenever it is nonempty the whole lowering returns exactly one
aggregated Diagnostic holding all of them. -/
theorem c6_error_aggregation (cfg : Config) (p : Program)
    (h : exportErrors cfg p ++ importErrors cfg p ≠ []) :
    programToTokens cfg p =
      Except.error (Diagnostic.aggregate (exportErrors cfg p ++ importErrors cfg p)) := by
  have hp := programPass_fst cfg p
  unfold programToTokens
  rw [hp]
  have hie : (exportErrors cfg p ++ importErrors cfg p).isEmpty = false := by
    cases hcase : exportErrors cfg p ++ importErrors cfg p with
    | nil => exact absurd hcase h
    | cons a l => rfl
  unfold fromVec
  rw [hie]
  rfl

/-- C6 witness: a program with two structurally failing exports returns
both errors together in one aggregated Diagnostic. -/
theorem c6_error_aggregation_witness :
    programToTokens cfg0 programTwoBad =
      Except.error (Diagnostic.aggregate
        [Diagnostic.spanError "cannot return a borrowed ref with #[wasm_bindgen]",
         Diagnostic.spanError "cannot return a borrowed ref with #[wasm_bindgen]"]) :=
  c6_error_aggregation cfg0 programTwoBad
    (by
      have hev : exportErrors cfg0 programTwoBad ++ importErrors cfg0 programTwoBad =
          [Diagnostic.spanError "cannot return a borrowed ref with #[wasm_bindgen]",
           Diagnostic.spanError "cannot return a borrowed ref with #[wasm_bindgen]"] := rfl
      rw [hev]
      exact List.cons_ne_nil _ _)

/-- C8: the generated typed unwrap first calls the host validation shim;
on the zero sentinel it returns the original host value unchanged as
the error and touches nothing, and only on a nonzero pointer does it
reclaim ownership of the boxed instance through the from-handle path,
removing the unborrowed cell from the heap and yielding its value. -/
theorem c8_typed_unwrap {A : Type} (unwrapShim : Nat → Nat) (h : Heap A) (v : JsValue)
    (cell : WasmRefCell A) :
    (unwrapShim v.abiIdx = 0 → structTryFromJsValue unwrapShim h v = some (Except.error v)) ∧
    (unwrapShim v.abiIdx ≠ 0 → heapGet h (unwrapShim v.abiIdx) = some cell →
      cell.borrow = BorrowState.unborrowed →
      structTryFromJsValue unwrapShim h v =
        some (Except.ok (cell.value, heapRemove h (unwrapShim v.abiIdx)))) := by
  constructor
  · intro h0
    simp [structTryFromJsValue, h0]
  · intro hne hcell hb
    simp [structTryFromJsValue, structFromAbi, hne, hcell, hb]

/-- C8 witness: with a host shim rejecting the value the original comes
back unchanged, and with a shim returning pointer 5 the boxed value 42
is reclaimed. -/
theorem c8_typed_unwrap_witness :
    structTryFromJsValue (fun _ => 0) heapExample { abiIdx := 3, asString := none } =
      some (Except.error { abiIdx := 3, asString := none }) ∧
    structTryFromJsValue (fun _ => 5) heapExample { abiIdx := 3, asString := none } =
      some (Except.ok (42, heapRemove heapExample 5)) :=
  ⟨(c8_typed_unwrap (fun _ => 0) heapExample { abiIdx := 3, asString := none }
      { value := 42, borrow := BorrowState.unborrowed }).1 rfl,
   (c8_typed_unwrap (fun _ => 5) heapExample { abiIdx := 3, asString := none }
      { value := 42, borrow := BorrowState.unborrowed }).2 (by decide) rfl rfl⟩

theorem importShim_flags (f : ImportFunction) (shim : ImportShim)
    (hok : importFunctionToTokens f = Except.ok shim) :
    shim.okWrapped = (f.catches && !f.isAsync) ∧
    shim.checksException = (f.catches && !f.isAsync) := by
  unfold importFunctionToTokens at hok
  cases hn : importArgNames f.arguments with
  | error d =>
      rw [hn] at hok
      exact absurd hok (by simp)
  | ok names =>
      rw [hn] at hok
      cases hr : importRetConvert f with
      | error d =>
          rw [hr] at hok
          exact absurd hok (by simp)
      | ok conv =>
          rw [hr] at hok
          have h1 := Except.ok.inj hok
          rw [← h1]
          exact ⟨rfl, rfl⟩

/-- Inversion of a successful import lowering on the return conversion:
the conversion recorded in the shim is exactly the one selected by
importRetConvert. -/
theorem importShim_convert (f : ImportFunction) (shim : ImportShim)
    (hok : importFunctionToTokens f = Except.ok shim) :
    importRetConvert f = Except.ok shim.convert := by
  unfold importFunctionToTokens at hok
  cases hn : importArgNames f.arguments with
  | error d =>
      rw [hn] at hok
      exact absurd hok (by simp)
  | ok names =>
      rw [hn] at hok
      cases hr : importRetConvert f with
      | error d =>
          rw [hr] at hok
          exact absurd hok (by simp)
      | ok conv =>
          rw [hr] at hok
          have h1 := Except.ok.inj hok
          rw [← h1]

/-- Classification of the return conversion of an async import
(codegen.rs 1191-1236): with catch it is one of the try conversions,
without catch one of the expect conversions. -/
theorem importRetConvert_async (f : ImportFunction) (c : ConvertRet)
    (hr : importRetConvert f = Except.ok c) (hasync : f.isAsync = true) :
    (f.catches = true → c = ConvertRet.awaitTry ∨ c = ConvertRet.awaitTryUnit) ∧
    (f.catches = false → c = ConvertRet.awaitExpect ∨ c = ConvertRet.awaitExpectUnit) := by
  unfold importRetConvert at hr
  constructor
  · intro hcat
    cases hjs : f.jsRet with
    | none =>
        rw [hjs] at hr
        simp [hasync, hcat] at hr
        exact Or.inr hr.symm
    | some ty =>
        rw [hjs] at hr
        cases ty with
        | ref m elem => simp at hr
        | unit =>
            simp [hasync, hcat] at hr
            exact Or.inl hr.symm
        | jsValue =>
            simp [hasync, hcat] at hr
            exact Or.inl hr.symm
        | named s =>
            simp [hasync, hcat] at hr
            exact Or.inl hr.symm
  · intro hcat
    cases hjs : f.jsRet with
    | none =>
        rw [hjs] at hr
        simp [hasync, hcat] at hr
        exact Or.inr hr.symm
    | some ty =>
        rw [hjs] at hr
        cases ty with
        | ref m elem => simp at hr
        | unit =>
            simp [hasync, hcat] at hr
            exact Or.inl hr.symm
        | jsValue =>
            simp [hasync, hcat] at hr
            exact Or.inl hr.symm
        | named s =>
            simp [hasync, hcat] at hr
            exact Or.inl hr.symm

/-- C9 counterexample: the shim generated for an async imported function
with the catch flag set performs no pending-host-exception check after
the external call returns (the take_last_exception check is inserted
only for sync catch imports, codegen.rs 1239-1245). -/
theorem c9_pending_check_not_universal :
    ¬ ((importFunctionToTokens importAsyncCatch).toOption.map ImportShim.checksException =
        some true) := by
  decide

/-- C9 (amended): for a sync imported function with catch, the generated
shim checks for a pending host exception after the external call returns
and yields Ok of the value or the pending exception as a local Err; for
an async declaration with catch no pending-exception check is inserted:
the shim instead awaits the deferred host value, a rejected promise (the
host exception) becomes the local Err and a resolution is wrapped in Ok;
without the catch flag a host exception is a fatal abort of the call
path in both cases (trap propagation for sync, an expect panic for
async) and a normal result is passed through plain. -/
theorem c9_catch_semantics (f : ImportFunction) (shim : ImportShim)
    (hok : importFunctionToTokens f = Except.ok shim) :
    (f.isAsync = false →
      (f.catches = true →
        shim.checksException = true ∧
        (∀ e, evalImportShimSync shim (HostCall.throwsException e) = ShimOutcome.errResult e) ∧
        (∀ v, evalImportShimSync shim (HostCall.returns v) = ShimOutcome.okResult v)) ∧
      (f.catches = false →
        shim.checksException = false ∧
        (∀ e, evalImportShimSync shim (HostCall.throwsException e) = ShimOutcome.fatalAbort) ∧
        (∀ v, evalImportShimSync shim (HostCall.returns v) = ShimOutcome.plain v))) ∧
    (f.isAsync = true →
      shim.checksException = false ∧
      (f.catches = true →
        (∀ e, evalImportShimAwait shim (Except.error e) = some (ShimOutcome.errResult e)) ∧
        (∀ v, ∃ w, evalImportShimAwait shim (Except.ok v) = some (ShimOutcome.okResult w))) ∧
      (f.catches = false →
        (∀ e, evalImportShimAwait shim (Except.error e) = some ShimOutcome.fatalAbort) ∧
        (∀ v, ∃ w, evalImportShimAwait shim (Except.ok v) = some (ShimOutcome.plain w)))) := by
  obtain ⟨hw, hc⟩ := importShim_flags f shim hok
  constructor
  · intro hsync
    rw [hsync] at hw hc
    constructor
    · intro hcat
      rw [hcat] at hw hc
      exact ⟨by simpa using hc,
             fun e => by simp [evalImportShimSync, hc],
             fun v => by simp [evalImportShimSync, hw]⟩
    · intro hcat
      rw [hcat] at hw hc
      exact ⟨by simpa using hc,
             fun e => by simp [evalImportShimSync, hc],
             fun v => by simp [evalImportShimSync, hw]⟩
  · intro hasync
    rw [hasync] at hw hc
    have hconv := importShim_convert f shim hok
    have hcls := importRetConvert_async f shim.convert hconv hasync
    refine ⟨by simpa using hc, ?_, ?_⟩
    · intro hcat
      rcases hcls.1 hcat with h | h
      · exact ⟨fun e => by simp [evalImportShimAwait, h],
               fun v => ⟨v, by simp [evalImportShimAwait, h]⟩⟩
      · exact ⟨fun e => by simp [evalImportShimAwait, h],
               fun v => ⟨0, by simp [evalImportShimAwait, h]⟩⟩
    · intro hcat
      rcases hcls.2 hcat with h | h
      · exact ⟨fun e => by simp [evalImportShimAwait, h],
               fun v => ⟨v, by simp [evalImportShimAwait, h]⟩⟩
      · exact ⟨fun e => by simp [evalImportShimAwait, h],
               fun v => ⟨0, by simp [evalImportShimAwait, h]⟩⟩

/-- C9 witness: with catch a thrown exception comes back as a local Err
for a sync import and a rejected promise does for an async import;
without catch both are fatal aborts. -/
theorem c9_catch_semantics_witness :
    evalImportShimSync importCatchShim
        (HostCall.throwsException { abiIdx := 0, asString := none }) =
      ShimOutcome.errResult { abiIdx := 0, asString := none } ∧
    evalImportShimSync importNoCatchShim
        (HostCall.throwsException { abiIdx := 0, asString := none }) =
      ShimOutcome.fatalAbort ∧
    evalImportShimAwait importAsyncCatchShim (Except.error { abiIdx := 0, asString := none }) =
      some (ShimOutcome.errResult { abiIdx := 0, asString := none }) ∧
    evalImportShimAwait importAsyncNoCatchShim
        (Except.error { abiIdx := 0, asString := none }) =
      some ShimOutcome.fatalAbort :=
  ⟨((((c9_catch_semantics importCatch importCatchShim rfl).1 rfl).1 rfl).2.1)
      { abiIdx := 0, asString := none },
   ((((c9_catch_semantics importNoCatch importNoCatchShim rfl).1 rfl).2 rfl).2.1)
      { abiIdx := 0, asString := none },
   ((((c9_catch_semantics importAsyncCatch importAsyncCatchShim rfl).2 rfl).2.1) rfl).1
      { abiIdx := 0, asString := none },
   ((((c9_catch_semantics importAsyncNoCatch importAsyncNoCatchShim rfl).2 rfl).2.2) rfl).1
      { abiIdx := 0, asString := none }⟩

theorem firstMatchIdx_eq_none (values : List String) (s : String) (h : s ∉ values) :
    firstMatchIdx values s = none := by
  induction values with
  | nil => rfl
  | cons v rest ih =>
      rw [List.mem_cons] at h
      push_neg at h
      obtain ⟨h1, h2⟩ := h
      simp only [firstMatchIdx]
      rw [if_neg (fun hv => h1 hv.symm), ih h2]
      rfl

/-- C10: decoding an imported enum from the boundary is total and never
fatal: a host value without a string form, or whose string form matches
no declared variant string, decodes to the hidden nonexhaustive variant
instead of aborting; encoding the nonexhaustive variant back panics
(modelled as none); and for an exported enum an incoming numeric value
matching no variant discriminant is a fatal abort (modelled as none). -/
theorem c10_enum_decode (e : ImportEnum) (obj : JsValue) (s : String) (ex : Enum) (js : Nat) :
    (obj.asString = none → importEnumFromAbi e obj = ImportEnumValue.nonexhaustive) ∧
    (obj.asString = some s → s ∉ e.variantValues →
      importEnumFromAbi e obj = ImportEnumValue.nonexhaustive) ∧
    importEnumToStr e ImportEnumValue.nonexhaustive = none ∧
    ((∀ q ∈ ex.variants, q.2 ≠ js) → enumFromAbi ex js = none) := by
  refine ⟨?_, ?_, rfl, ?_⟩
  · intro h
    simp [importEnumFromAbi, importEnumFromJsValue, h]
  · intro h hnot
    simp [importEnumFromAbi, importEnumFromJsValue, importEnumFromStr, h,
      firstMatchIdx_eq_none e.variantValues s hnot]
  · intro hall
    have hfind : ex.variants.find? (fun q => q.2 == js) = none := by
      rw [List.find?_eq_none]
      intro q hq
      simp [hall q hq]
    simp [enumFromAbi, hfind]

/-- C10 witness: a host string matching no variant decodes to the
nonexhaustive variant, while the numeric value 7 aborts the exported
enum decode. -/
theorem c10_enum_decode_witness :
    importEnumFromAbi importEnumExample { abiIdx := 0, asString := some "blue" } =
      ImportEnumValue.nonexhaustive ∧
    enumFromAbi enumExample 7 = none :=
  ⟨(c10_enum_decode importEnumExample { abiIdx := 0, asString := some "blue" } "blue"
      enumExample 7).2.1 rfl (by decide),
   (c10_enum_decode importEnumExample { abiIdx := 0, asString := some "blue" } "blue"
      enumExample 7).2.2.2 (by decide)⟩

end WasmBindgen
